import Mathlib

/-!
Byte-level embedding of an iterative DNS resolver written in TypeScript.

Buffers are `List Nat` of byte values; strings that the program builds
(domain names, interpreted record data) are `List Nat` of ASCII codes, so
that encoding and decoding stay in one carrier type.  `str` turns a Lean
string literal into its ASCII codes for readable statements.

The name-decompression loop in the source is a `while (true)` loop that can
genuinely diverge (it has no cycle or bounds check), so it is embedded with
explicit fuel: `none` means the loop has not returned within the given fuel.
A read of `buffer[offset]` past the end of a Node `Buffer` yields
`undefined`, after which the loop's offset arithmetic produces `NaN` and the
loop never exits; the embedding therefore returns `none` on an out-of-range
length-byte read as well.
-/

namespace DNS

/-- ASCII codes of a string literal, for readable byte-list literals. -/
def str (s : String) : List Nat := s.data.map Char.toNat

/-! ### parseDomainName.ts -/

/-- `isEndOfName`: a zero length byte terminates the domain name. -/
def isEndOfName (lengthByte : Nat) : Bool := lengthByte == 0

/-- `isPointerIndicator`: top two bits `11` mark a compression pointer. -/
def isPointerIndicator (lengthByte : Nat) : Bool := lengthByte &&& 0xc0 == 0xc0

/-- `calculatePointerOffset`: low 6 bits of the pointer byte together with the
following byte form the 14-bit target offset.  A read past the end of the
buffer yields `undefined`, which JavaScript's `|` coerces to `0`. -/
def calculatePointerOffset (lengthByte : Nat) (buffer : List Nat) (currentOffset : Nat) : Nat :=
  ((lengthByte &&& 0x3f) <<< 8) ||| buffer.getD (currentOffset + 1) 0

/-- `readLabel`: the `length` bytes after the length byte, decoded as ASCII.
Node's `'ascii'` decoding clears the top bit of every byte; `toString` clamps
the requested range to the buffer, hence the `take`. -/
def readLabel (buffer : List Nat) (offset length_ : Nat) : List Nat :=
  ((buffer.drop (offset + 1)).take length_).map (· % 128)

/-- The `while (true)` loop of `parseDomainName`, with explicit fuel.  State:
current `offset`, accumulated `name`, `hasEncounteredPointer` flag and the
`originalOffset` remembered at the first pointer.  `none` = the loop has not
returned within `fuel` steps (in particular, an out-of-range length-byte read
makes the real loop diverge, so it returns `none` at once). -/
def parseLoop (buffer : List Nat) :
    Nat → Nat → List Nat → Bool → Nat → Option (List Nat × Nat)
  | 0, _, _, _, _ => none
  | fuel + 1, offset, name, hasEncounteredPointer, originalOffset =>
    match buffer.get? offset with
    | none => none
    | some lengthByte =>
      if isEndOfName lengthByte then
        some (name, if hasEncounteredPointer then originalOffset else offset + 1)
      else if isPointerIndicator lengthByte then
        parseLoop buffer fuel (calculatePointerOffset lengthByte buffer offset) name true
          (if hasEncounteredPointer then originalOffset else offset + 2)
      else
        parseLoop buffer fuel (offset + lengthByte + 1)
          (name ++ readLabel buffer offset lengthByte ++ [46]) hasEncounteredPointer
          originalOffset

/-- `parseDomainName(buffer, offset)`, fuelled. -/
def parseDomainName (buffer : List Nat) (offset fuel : Nat) : Option (List Nat × Nat) :=
  parseLoop buffer fuel offset [] false 0

/-! ### encodeDomainName.ts -/

/-- `encodeDomainName`: split on `.`, prefix each part with its length byte
(`Buffer.from([n])` keeps the low 8 bits), encode the part as ASCII
(`Buffer.from(part, 'ascii')` keeps the low 8 bits of each char code), and
append a terminating zero byte. -/
def encodeDomainName (domain : List Nat) : List Nat :=
  ((domain.splitOn 46).map (fun part => part.length % 256 :: part.map (· % 256))).flatten ++ [0]

/-! ### createDNSQuery.ts -/

/-- `createDNSQuery(domain, identifier)`: header then question. -/
def createDNSQuery (domain : List Nat) (identifier : List Nat) : List Nat :=
  identifier ++ [0x00, 0x00] ++ [0x00, 0x01] ++ [0x00, 0x00] ++ [0x00, 0x00] ++ [0x00, 0x00]
    ++ encodeDomainName domain ++ [0x00, 0x01] ++ [0x00, 0x01]

/-- A 16-bit value in big-endian byte order, used to state header layout. -/
def be16 (n : Nat) : List Nat := [n / 256 % 256, n % 256]

/-! ### Record type codes exported by index.ts -/

/-- A record type code from `index.ts`. -/
def A_RECORD_TYPE : Nat := 1

/-- NS record type code from `index.ts`. -/
def NS_RECORD_TYPE : Nat := 2

/-- AAAA record type code from `index.ts`. -/
def AAAA_RECORD_TYPE : Nat := 28

/-! ### interpretRDataARecord.ts -/

/-- Decimal digits (ASCII) of a byte value. -/
def natToDecimalDigits (n : Nat) : List Nat := (Nat.toDigits 10 n).map Char.toNat

/-- Lowercase hexadecimal digits (ASCII) of a value, no zero-padding
(`0` renders as `"0"`); `Number.prototype.toString(16)`. -/
def natToHexDigits (n : Nat) : List Nat := (Nat.toDigits 16 n).map Char.toNat

/-- A byte as two lowercase hexadecimal digits (ASCII), as in
`Buffer.toString('hex')`. -/
def byteToHexPair (b : Nat) : List Nat := natToHexDigits (b / 16) ++ natToHexDigits (b % 16)

/-- `interpretIPv4Address`: `Array.from(rdata).join('.')` — every byte in
decimal, joined by dots. -/
def interpretIPv4Address (rdata : List Nat) : List Nat :=
  List.intercalate [46] (rdata.map natToDecimalDigits)

/-- The `for` loop of `interpretIPv6Address`: it reads
`rdata.readUInt16BE(byteIndex)` for `byteIndex = 0, 2, 4, …` while
`byteIndex < rdata.length`, collecting 16-bit big-endian group values.
When exactly one byte remains, `readUInt16BE` needs a byte past the end of
the buffer and throws a `RangeError`, hence `none`. -/
def readIPv6Groups : List Nat → Option (List Nat)
  | [] => some []
  | [_] => none
  | a :: b :: rest => (readIPv6Groups rest).map fun gs => (a * 256 + b) :: gs

/-- `interpretIPv6Address`: the group values in lowercase hexadecimal
without zero-padding, joined by `:`. -/
def interpretIPv6Address (rdata : List Nat) : Option (List Nat) :=
  (readIPv6Groups rdata).map fun gs => List.intercalate [58] (gs.map natToHexDigits)

/-- `interpretRDataARecord`: `switch (type)` — A records via
`interpretIPv4Address`, AAAA records via `interpretIPv6Address` (whose
`readUInt16BE` can throw, hence the `Option`), any other type as
`rdata.toString('hex')`. -/
def interpretRDataARecord (rdata : List Nat) (type_ : Nat) : Option (List Nat) :=
  if type_ = A_RECORD_TYPE then some (interpretIPv4Address rdata)
  else if type_ = AAAA_RECORD_TYPE then interpretIPv6Address rdata
  else some ((rdata.map byteToHexPair).flatten)

/-- Spec-side description used to state C7: consecutive byte pairs combined
as 16-bit big-endian groups.  Unlike the code's loop it is total — on a
trailing odd byte it stops where the code would throw. -/
def toBigEndian16Groups : List Nat → List Nat
  | a :: b :: rest => (a * 256 + b) :: toBigEndian16Groups rest
  | _ => []

/-! ### parseResponse.ts -/

/-- The `DNSRecord` interface of `index.ts`. -/
structure DNSRecord where
  domainName : List Nat
  type : Nat
  rdata : List Nat
  offset : Nat
deriving DecidableEq

/-- The `Header` interface of `parseResponse.ts`. -/
structure Header where
  transactionID : Nat
  questionsCount : Nat
  answersCount : Nat
  authorityCount : Nat
  additionalCount : Nat
deriving DecidableEq

/-- `Buffer.readUInt16BE`: throws a `RangeError` when the two bytes are not
both inside the buffer, hence `Option`. -/
def readUInt16BE (buffer : List Nat) (offset : Nat) : Option Nat :=
  match buffer.get? offset, buffer.get? (offset + 1) with
  | some hi, some lo => some (hi * 256 + lo)
  | _, _ => none

/-- `isResponse`: QR bit (bit 15 of the flags word at offset 2). -/
def isResponse (buffer : List Nat) : Option Bool :=
  (readUInt16BE buffer 2).map (fun flags => (flags &&& 0x8000) != 0)

/-- `parseHeader`. -/
def parseHeader (buffer : List Nat) : Option Header := do
  let transactionID ← readUInt16BE buffer 0
  let questionsCount ← readUInt16BE buffer 4
  let answersCount ← readUInt16BE buffer 6
  let authorityCount ← readUInt16BE buffer 8
  let additionalCount ← readUInt16BE buffer 10
  pure ⟨transactionID, questionsCount, answersCount, authorityCount, additionalCount⟩

/-- `parseRecord`: owner name, 2-byte type, skip class (2) and TTL (4),
2-byte rdata length; NS rdata is a compressed name decoded in place (the
stated length is ignored), other rdata is `dataLength` raw bytes interpreted
by `interpretRDataARecord` (`Buffer.slice` clamps to the buffer; an
exception thrown by the interpreter propagates out of the parse). -/
def parseRecord (buffer : List Nat) (offset fuel : Nat) : Option DNSRecord := do
  let nameAndOffset ← parseDomainName buffer offset fuel
  let type_ ← readUInt16BE buffer nameAndOffset.2
  let dataLength ← readUInt16BE buffer (nameAndOffset.2 + 8)
  let o2 := nameAndOffset.2 + 10
  if type_ = NS_RECORD_TYPE then
    let rdataAndOffset ← parseDomainName buffer o2 fuel
    pure ⟨nameAndOffset.1, type_, rdataAndOffset.1, rdataAndOffset.2⟩
  else
    let rdata ← interpretRDataARecord ((buffer.drop o2).take dataLength) type_
    pure ⟨nameAndOffset.1, type_, rdata, o2 + dataLength⟩

/-- `parseSections`: the `for` loop — parse `count` records, each starting at
the previous record's `offset` field. -/
def parseSections (buffer : List Nat) : Nat → Nat → Nat → Option (List DNSRecord)
  | 0, _, _ => some []
  | count + 1, startOffset, fuel => do
    let record ← parseRecord buffer startOffset fuel
    let rest ← parseSections buffer count record.offset fuel
    pure (record :: rest)

/-- `updateOffset`: the last parsed record's `offset`, or the current offset
when the section was empty. -/
def updateOffset (records : List DNSRecord) (currentOffset : Nat) : Nat :=
  match records.getLast? with
  | some r => r.offset
  | none => currentOffset

/-- The parsed `Message` returned by `parseResponse`. -/
structure DNSMessage where
  header : Header
  questionName : List Nat
  answerRecords : List DNSRecord
  authorityRecords : List DNSRecord
  additionalRecords : List DNSRecord
deriving DecidableEq

/-- `parseResponse`: QR check, fixed header, question name at offset 12,
skip 4 bytes of type+class, then the three record sections, each continuing
at `updateOffset` of the previous one. -/
def parseResponse (buffer : List Nat) (fuel : Nat) : Option DNSMessage := do
  let resp ← isResponse buffer
  if !resp then none
  else do
    let header ← parseHeader buffer
    let question ← parseDomainName buffer 12 fuel
    let offset := question.2 + 4
    let answerRecords ← parseSections buffer header.answersCount offset fuel
    let offset1 := updateOffset answerRecords offset
    let authorityRecords ← parseSections buffer header.authorityCount offset1 fuel
    let offset2 := updateOffset authorityRecords offset1
    let additionalRecords ← parseSections buffer header.additionalCount offset2 fuel
    pure ⟨header, question.1, answerRecords, authorityRecords, additionalRecords⟩

/-! ### index.ts — the resolution engine's per-response decision -/

/-- `DOMAIN_TO_RESOLVE` constant of `index.ts`. -/
def DOMAIN_TO_RESOLVE : List Nat := str "www.google.com"

/-- The externally visible action `processDNSResponse` takes on one parsed
response.  `sendQuery` models the `queryDNS(domain, server)` call, `report`
the `console.log` of a found address, `noAction` the silent fall-through when
`if (nsIP)` is falsy (no matching glue record, or an empty-string address),
and `crash` the `TypeError` thrown by reading `.rdata` of
`answerRecords[0] === undefined`. -/
inductive DNSAction where
  | sendQuery (domain server : List Nat)
  | report (rdata : List Nat)
  | noAction
  | crash
deriving DecidableEq

/-- Spec-side definition for the `newOffset` rule of §4.1: the position of
the first compression pointer reached from `offset` by walking literal
labels only ("the first pointer encountered").  `some none` when the
terminating zero byte is reached before any pointer, `none` when the walk
does not settle within `fuel` length bytes. -/
def firstPointerOnPath (buffer : List Nat) : Nat → Nat → Option (Option Nat)
  | 0, _ => none
  | fuel + 1, offset =>
    match buffer.get? offset with
    | none => none
    | some lengthByte =>
      if isEndOfName lengthByte then some none
      else if isPointerIndicator lengthByte then some (some offset)
      else firstPointerOnPath buffer fuel (offset + lengthByte + 1)

/-- Spec-side section parser, following the spec's words: parse exactly
`count` records and also report the offset at which the section ended, each
record continuing from wherever the previous one ended; a zero-record
section ends at the unchanged start offset. -/
def parseSectionsSpec (buffer : List Nat) : Nat → Nat → Nat → Option (List DNSRecord × Nat)
  | 0, startOffset, _ => some ([], startOffset)
  | count + 1, startOffset, fuel => do
    let record ← parseRecord buffer startOffset fuel
    let rest ← parseSectionsSpec buffer count record.offset fuel
    pure (record :: rest.1, rest.2)

/-- Spec-side `parseResponse`, following §4.3's words: question name at
offset 12, skip 4 bytes of type+class, then exactly `answersCount` records,
then exactly `authorityCount` records starting where the answer section
ended, then exactly `additionalCount` records starting where the authority
section ended. -/
def parseResponseSpec (buffer : List Nat) (fuel : Nat) : Option DNSMessage := do
  let resp ← isResponse buffer
  if !resp then none
  else do
    let header ← parseHeader buffer
    let question ← parseDomainName buffer 12 fuel
    let ans ← parseSectionsSpec buffer header.answersCount (question.2 + 4) fuel
    let auth ← parseSectionsSpec buffer header.authorityCount ans.2 fuel
    let add ← parseSectionsSpec buffer header.additionalCount auth.2 fuel
    pure ⟨header, question.1, ans.1, auth.1, add.1⟩

/-- `processDNSResponse` of `index.ts`. -/
def processDNSResponse (response : DNSMessage) : DNSAction :=
  let nsRecords := response.authorityRecords.filter (fun r => r.type == NS_RECORD_TYPE)
  match nsRecords with
  | nsRecord :: _ =>
    match response.additionalRecords.find? (fun r => r.domainName == nsRecord.rdata) with
    | some glue =>
      if glue.rdata.isEmpty then DNSAction.noAction
      else DNSAction.sendQuery DOMAIN_TO_RESOLVE glue.rdata
    | none => DNSAction.noAction
  | [] =>
    match response.answerRecords with
    | answerRecord :: _ => DNSAction.report answerRecord.rdata
    | [] => DNSAction.crash

/-! ## Theorems -/

/-- Helper for C1: once the loop of `parseDomainName` is in the state
reached from the self-targeting pointer of `[0xc0, 0x00]`, it reproduces
that state exactly and never returns, whatever fuel it is given. -/
theorem parseLoop_selfPointer_none :
    ∀ fuel, parseLoop [0xc0, 0x00] fuel 0 [] true 2 = none
  | 0 => rfl
  | fuel + 1 => parseLoop_selfPointer_none fuel

/-- C1: the claim says a compression pointer whose 14-bit target is ≥ the
position of the pointer byte makes `decodeName` raise
`MalformedMessageError` and terminate.  The code has no such check and no
error path at all: on the buffer `[0xc0, 0x00]` (a pointer at position 0
targeting offset 0) the `while (true)` loop never returns — for every fuel
bound the embedded loop yields no result — and on `[0xc0, 0x02, 0x00]`
(a pointer at position 0 targeting offset 2 > 0) it terminates normally
with no error, returning the empty name. -/
theorem parseDomainName_pointerForward_noError :
    (∀ fuel, parseDomainName [0xc0, 0x00] 0 fuel = none) ∧
      parseDomainName [0xc0, 0x02, 0x00] 0 10 = some ([], 2) := by
  constructor
  · intro fuel
    cases fuel with
    | zero => rfl
    | succ fuel => exact parseLoop_selfPointer_none fuel
  · decide

/-- C4: a response whose authority section holds an NS record with no
matching glue record in the additional section makes `processDNSResponse`
silently do nothing: the `if (nsIP)` guard has no else branch, so no
query is sent and no error is surfaced — contradicting the claimed
`UnresolvedDelegationError`. -/
theorem processDNSResponse_missingGlue_silent :
    processDNSResponse
      ⟨⟨1, 1, 0, 1, 0⟩, str "www.google.com.", [],
        [⟨str "example.", 2, str "ns1.example.", 40⟩], []⟩ = DNSAction.noAction := by
  decide

/-- C9: a response with no NS record in the authority section and an empty
answer section makes `processDNSResponse` read `.rdata` of
`answerRecords[0] === undefined`, an uncaught `TypeError` — a crash, not a
surfaced `EmptyAnswerError` (no such error exists in the code). -/
theorem processDNSResponse_emptyAnswers_crash :
    processDNSResponse ⟨⟨1, 1, 0, 0, 0⟩, str "www.google.com.", [], [], []⟩ =
      DNSAction.crash := by
  decide

/-- Counterexample to C8 as stated: the additional section contains a record
whose owner name equals the first NS record's target name, yet no next query
is issued, because the record's interpreted address is the empty string and
`if (nsIP)` treats it as falsy. -/
theorem processDNSResponse_emptyGlueAddress_noQuery :
    processDNSResponse
      ⟨⟨1, 1, 0, 1, 1⟩, str "www.google.com.", [],
        [⟨str "example.", 2, str "ns1.example.", 40⟩],
        [⟨str "ns1.example.", 1, [], 60⟩]⟩ = DNSAction.noAction := by
  decide

/-- C8 (amended): when the authority section's first NS record has a
matching additional record (first match by owner name) and that record's
interpreted address is non-empty, the engine issues its next query to that
address, for the original target domain `DOMAIN_TO_RESOLVE`, not the NS
name. -/
theorem processDNSResponse_glue_delegates (response : DNSMessage)
    (nsRecord : DNSRecord) (rest : List DNSRecord) (glue : DNSRecord)
    (hns : response.authorityRecords.filter (fun r => r.type == NS_RECORD_TYPE) =
      nsRecord :: rest)
    (hglue : response.additionalRecords.find? (fun r => r.domainName == nsRecord.rdata) =
      some glue)
    (hne : glue.rdata ≠ []) :
    processDNSResponse response = DNSAction.sendQuery DOMAIN_TO_RESOLVE glue.rdata := by
  have hef : glue.rdata.isEmpty = false := by
    cases hgr : glue.rdata with
    | nil => exact absurd hgr hne
    | cons a l => rfl
  simp [processDNSResponse, hns, hglue, hef]

/-- Witness for C8's amended theorem, on the spec's §8 synthetic example:
one authority NS record for `ns1.example.` and a matching additional A
record `ns1.example. = 10.0.0.1` make the engine query `10.0.0.1` for the
original target domain. -/
theorem processDNSResponse_glue_delegates_witness :
    processDNSResponse
      ⟨⟨1, 1, 0, 1, 1⟩, str "www.google.com.", [],
        [⟨str "example.", 2, str "ns1.example.", 40⟩],
        [⟨str "ns1.example.", 1, str "10.0.0.1", 60⟩]⟩ =
      DNSAction.sendQuery DOMAIN_TO_RESOLVE (str "10.0.0.1") :=
  processDNSResponse_glue_delegates _ ⟨str "example.", 2, str "ns1.example.", 40⟩ []
    ⟨str "ns1.example.", 1, str "10.0.0.1", 60⟩ (by decide) (by decide) (by decide)

/-- C6: `createDNSQuery` is exactly the concatenation, in order, of the
2-byte identifier, big-endian 16-bit flags 0, question count 1, answer,
authority and additional counts 0, the encoded question name, type 1 (A)
and class 1 (IN). -/
theorem createDNSQuery_layout (domain identifier : List Nat)
    (_h : identifier.length = 2) :
    createDNSQuery domain identifier =
      identifier ++ be16 0x0000 ++ be16 1 ++ be16 0 ++ be16 0 ++ be16 0 ++
        encodeDomainName domain ++ be16 1 ++ be16 1 := rfl

/-- Witness for C6 at identifier `[0x12, 0x34]` and domain `www.google.com`. -/
theorem createDNSQuery_layout_witness :
    ([0x12, 0x34] : List Nat).length = 2 ∧
      createDNSQuery (str "www.google.com") [0x12, 0x34] =
        [0x12, 0x34] ++ be16 0x0000 ++ be16 1 ++ be16 0 ++ be16 0 ++ be16 0 ++
          encodeDomainName (str "www.google.com") ++ be16 1 ++ be16 1 :=
  ⟨rfl, createDNSQuery_layout (str "www.google.com") [0x12, 0x34] rfl⟩

/-- Helper for C7: a 16-byte buffer yields exactly eight 16-bit groups. -/
theorem toBigEndian16Groups_length :
    ∀ l : List Nat, (toBigEndian16Groups l).length = l.length / 2
  | [] => rfl
  | [_] => by simp [toBigEndian16Groups]
  | _ :: _ :: rest => by
    simp only [toBigEndian16Groups, List.length_cons, toBigEndian16Groups_length rest]
    omega

/-- Helper for C7: on a buffer of even length the code's group-reading loop
never hits its `RangeError` and collects exactly the pairwise big-endian
groups. -/
theorem readIPv6Groups_even :
    ∀ rdata : List Nat, rdata.length % 2 = 0 →
      readIPv6Groups rdata = some (toBigEndian16Groups rdata)
  | [], _ => rfl
  | [_], h => by simp at h
  | a :: b :: rest, h => by
    have ih := readIPv6Groups_even rest (by simp at h; omega)
    simp [readIPv6Groups, toBigEndian16Groups, ih]

/-- C7: for a 16-byte rdata of type AAAA (28), `interpretRDataARecord`
splits it into eight 16-bit big-endian groups, renders each as lowercase
hexadecimal without zero-padding and joins them with `:`; the spec's test
vector yields `"2001:db8:0:800:0:0:0:1"`. -/
theorem interpretRData_aaaa (rdata : List Nat) (h : rdata.length = 16) :
    (toBigEndian16Groups rdata).length = 8 ∧
      interpretRDataARecord rdata 28 =
        some (List.intercalate [58] ((toBigEndian16Groups rdata).map natToHexDigits)) ∧
      interpretRDataARecord [32, 1, 13, 184, 0, 0, 8, 0, 0, 0, 0, 0, 0, 0, 0, 1] 28 =
        some (str "2001:db8:0:800:0:0:0:1") := by
  refine ⟨?_, ?_, by decide⟩
  · rw [toBigEndian16Groups_length, h]
  · have heven : rdata.length % 2 = 0 := by omega
    rw [interpretRDataARecord]
    simp [A_RECORD_TYPE, AAAA_RECORD_TYPE, interpretIPv6Address,
      readIPv6Groups_even rdata heven]

/-- Unfolding lemma: one step of the loop when the length byte is out of
range (the real loop then never returns). -/
theorem parseLoop_oob {buffer : List Nat} {offset : Nat}
    (hb : buffer.get? offset = none) (fuel : Nat) (name : List Nat) (hEP : Bool) (oO : Nat) :
    parseLoop buffer (fuel + 1) offset name hEP oO = none := by
  simp only [parseLoop]
  rw [hb]

/-- Unfolding lemma: one step of the loop when the length byte is `b`. -/
theorem parseLoop_step {buffer : List Nat} {offset b : Nat}
    (hb : buffer.get? offset = some b) (fuel : Nat) (name : List Nat) (hEP : Bool) (oO : Nat) :
    parseLoop buffer (fuel + 1) offset name hEP oO =
      if isEndOfName b then some (name, if hEP then oO else offset + 1)
      else if isPointerIndicator b then
        parseLoop buffer fuel (calculatePointerOffset b buffer offset) name true
          (if hEP then oO else offset + 2)
      else
        parseLoop buffer fuel (offset + b + 1) (name ++ readLabel buffer offset b ++ [46])
          hEP oO := by
  simp only [parseLoop]
  rw [hb]

/-- Unfolding lemma for `firstPointerOnPath` when the length byte is `b`. -/
theorem firstPointerOnPath_step {buffer : List Nat} {offset b : Nat}
    (hb : buffer.get? offset = some b) (fuel : Nat) :
    firstPointerOnPath buffer (fuel + 1) offset =
      if isEndOfName b then some none
      else if isPointerIndicator b then some (some offset)
      else firstPointerOnPath buffer fuel (offset + b + 1) := by
  simp only [firstPointerOnPath]
  rw [hb]

/-- Helper for C3: once a pointer has been encountered
(`hasEncounteredPointer = true`), whatever the loop of `parseDomainName`
still does — however many further pointers it chases — a successful return
reports exactly the remembered `originalOffset`. -/
theorem parseLoop_pointerSeen (buffer : List Nat) :
    ∀ fuel offset name oO nm off',
      parseLoop buffer fuel offset name true oO = some (nm, off') → off' = oO
  | 0, _, _, _, _, _ => by intro h; exact absurd h (by simp [parseLoop])
  | fuel + 1, offset, name, oO, nm, off' => by
    intro h
    cases hb : buffer.get? offset with
    | none => rw [parseLoop_oob hb] at h; exact absurd h (by simp)
    | some b =>
      rw [parseLoop_step hb] at h
      by_cases h0 : isEndOfName b
      · rw [if_pos h0] at h
        simp at h
        exact h.2.symm
      · rw [if_neg h0] at h
        by_cases hp : isPointerIndicator b
        · rw [if_pos hp] at h
          have := parseLoop_pointerSeen buffer fuel _ _ _ _ _ h
          simpa using this
        · rw [if_neg hp] at h
          exact parseLoop_pointerSeen buffer fuel _ _ _ _ _ h

/-- Helper for C3: before any pointer has been encountered, a successful
return either reports `p + 2` where `p` is the position of the first
pointer on the literal-label path, or — when the path ends at a zero byte
with no pointer — the position one past that terminating zero byte. -/
theorem parseLoop_noPointer (buffer : List Nat) :
    ∀ fuel offset name oO nm off',
      parseLoop buffer fuel offset name false oO = some (nm, off') →
      (∀ p, firstPointerOnPath buffer fuel offset = some (some p) → off' = p + 2) ∧
        (firstPointerOnPath buffer fuel offset = some none →
          ∃ z, buffer.get? z = some 0 ∧ off' = z + 1)
  | 0, _, _, _, _, _ => by intro h; exact absurd h (by simp [parseLoop])
  | fuel + 1, offset, name, oO, nm, off' => by
    intro h
    cases hb : buffer.get? offset with
    | none => rw [parseLoop_oob hb] at h; exact absurd h (by simp)
    | some b =>
      rw [parseLoop_step hb] at h
      rw [firstPointerOnPath_step hb]
      by_cases h0 : isEndOfName b
      · rw [if_pos h0] at h
        rw [if_pos h0]
        simp at h
        obtain ⟨-, h2⟩ := h
        constructor
        · intro p hpp
          exact absurd hpp (by simp)
        · intro _
          refine ⟨offset, ?_, by omega⟩
          have hb0 : b = 0 := by simpa [isEndOfName] using h0
          rw [← hb0]
          exact hb
      · rw [if_neg h0] at h
        rw [if_neg h0]
        by_cases hp : isPointerIndicator b
        · rw [if_pos hp] at h
          rw [if_pos hp]
          simp at h
          have hoff := parseLoop_pointerSeen buffer fuel _ _ _ _ _ h
          constructor
          · intro p hpp
            simp at hpp
            omega
          · intro hc
            exact absurd hc (by simp)
        · rw [if_neg hp] at h
          rw [if_neg hp]
          exact parseLoop_noPointer buffer fuel _ _ _ _ _ h

/-- Helper for C2: a length byte that is a genuine label length (at most
191) is not a compression pointer indicator, because `n &&& 0xc0` never
exceeds `n`. -/
theorem not_pointerIndicator_of_le {n : Nat} (hlen : n ≤ 191) :
    ¬(isPointerIndicator n = true) := by
  simp only [isPointerIndicator, beq_iff_eq]
  intro hc
  have hle : n &&& 192 ≤ n := Nat.and_le_left
  omega

/-- Helper for C2: the loop of `parseDomainName`, run at the start of a
stored sequence of length-prefixed labels followed by a zero byte, consumes
exactly those labels, appending each followed by a dot, and stops one past
the zero byte.  `pre` is whatever precedes the labels in the buffer. -/
theorem parseLoop_encodedLabels (buffer : List Nat) :
    ∀ (ls : List (List Nat)) (pre post name : List Nat) (hEP : Bool) (oO : Nat),
      buffer = pre ++ (((ls.map fun l => l.length :: l).flatten) ++ 0 :: post) →
      (∀ l ∈ ls, l ≠ [] ∧ l.length ≤ 191 ∧ ∀ b ∈ l, b < 128) →
      parseLoop buffer (ls.length + 1) pre.length name hEP oO =
        some (name ++ ((ls.map fun l => l ++ [46]).flatten),
          if hEP then oO
          else pre.length + (((ls.map fun l => l.length :: l).flatten)).length + 1)
  | [], pre, post, name, hEP, oO => by
    intro hbuf hcond
    have hb : buffer.get? pre.length = some 0 := by
      rw [hbuf, List.get?_append_right (Nat.le_refl _)]
      simp
    rw [parseLoop_step hb]
    simp [isEndOfName]
  | l :: ls, pre, post, name, hEP, oO => by
    intro hbuf hcond
    obtain ⟨hne, hlen, hbytes⟩ := hcond l (List.mem_cons_self l ls)
    have hbuf' : buffer =
        (pre ++ l.length :: l) ++ (((ls.map fun l => l.length :: l).flatten) ++ 0 :: post) := by
      rw [hbuf]; simp
    have hb : buffer.get? pre.length = some l.length := by
      rw [hbuf, List.get?_append_right (Nat.le_refl _)]
      simp
    have hlen0 : l.length ≠ 0 := fun hc => hne (List.length_eq_zero.mp hc)
    have h0 : ¬(isEndOfName l.length = true) := by simp [isEndOfName, hlen0]
    have hp : ¬(isPointerIndicator l.length = true) := not_pointerIndicator_of_le hlen
    have hbuf2 : buffer =
        (pre ++ [l.length]) ++
          (l ++ (((ls.map fun l => l.length :: l).flatten) ++ 0 :: post)) := by
      rw [hbuf]; simp
    have hread : readLabel buffer pre.length l.length = l := by
      have hdrop : buffer.drop (pre.length + 1) =
          l ++ (((ls.map fun l => l.length :: l).flatten) ++ 0 :: post) := by
        rw [hbuf2, show pre.length + 1 = (pre ++ [l.length]).length by simp]
        exact List.drop_left _ _
      rw [readLabel, hdrop, List.take_left]
      calc l.map (· % 128) = l.map id :=
            List.map_congr_left fun b hbm => Nat.mod_eq_of_lt (hbytes b hbm)
        _ = l := List.map_id l
    have harg : pre.length + l.length + 1 = (pre ++ l.length :: l).length := by
      simp [Nat.add_assoc]
    rw [parseLoop_step hb, if_neg h0, if_neg hp, hread, List.length_cons, harg,
      parseLoop_encodedLabels buffer ls (pre ++ l.length :: l) post (name ++ l ++ [46]) hEP oO
        hbuf' (fun l' hl' => hcond l' (List.mem_cons_of_mem _ hl'))]
    cases hEP with
    | false =>
      simp only [Bool.false_eq_true, if_false, List.map_cons, List.flatten_cons,
        Option.some.injEq, Prod.mk.injEq]
      constructor
      · simp
      · simp only [List.length_append, List.length_cons]
        omega
    | true => simp

/-- Helper for C2: appending the separator to every chunk and flattening is
intercalation by the separator followed by one trailing separator. -/
theorem flatten_map_append_sep (s : Nat) :
    ∀ ls : List (List Nat), ls ≠ [] →
      (ls.map fun l => l ++ [s]).flatten = List.intercalate [s] ls ++ [s]
  | [], h => absurd rfl h
  | [l], _ => by simp [List.intercalate]
  | l :: l' :: ls, _ => by
    have ih := flatten_map_append_sep s (l' :: ls) (by simp)
    rw [List.map_cons, List.flatten_cons, ih,
      show List.intercalate [s] (l :: l' :: ls) =
          l ++ [s] ++ List.intercalate [s] (l' :: ls) from by
        simp [List.intercalate, List.intersperse]]
    simp

/-- Counterexample to C2 as stated: `d = "www..com"` is a dotted name all of
whose labels ("www", "", "com") are at most 255 bytes, yet decoding its
encoding returns `("www.", 5)` — the empty label's zero-length byte is read
as the end-of-name terminator — not `d` with a trailing dot and not the
total encoding length 10. -/
theorem encode_decode_roundTrip_cex :
    (∀ l ∈ (str "www..com").splitOn 46, l.length ≤ 255) ∧
      parseDomainName (encodeDomainName (str "www..com")) 0 10 = some (str "www.", 5) ∧
      str "www." ≠ str "www..com" ++ [46] ∧
      (5 : Nat) ≠ (encodeDomainName (str "www..com")).length := by
  refine ⟨by decide, by decide, by decide, by decide⟩

/-- C2 (amended): for every dotted name `d` whose labels are all nonempty,
at most 191 bytes long (so the length byte is neither the terminator nor
carries the `0xc0` pointer bits) and made of 7-bit bytes (Node's `ascii`
decoding strips the top bit), decoding the encoding of `d` at offset 0
returns `d` with a trailing dot appended, and the returned `newOffset` is
the total length of the encoding. -/
theorem encode_decode_roundTrip (d : List Nat)
    (h : ∀ l ∈ d.splitOn 46, l ≠ [] ∧ l.length ≤ 191 ∧ ∀ b ∈ l, b < 128) :
    parseDomainName (encodeDomainName d) 0 ((d.splitOn 46).length + 1) =
      some (d ++ [46], (encodeDomainName d).length) := by
  have hmap : (d.splitOn 46).map (fun part => part.length % 256 :: part.map (· % 256)) =
      (d.splitOn 46).map (fun l => l.length :: l) := by
    apply List.map_congr_left
    intro l hl
    obtain ⟨hne, hlen, hbytes⟩ := h l hl
    congr 1
    · exact Nat.mod_eq_of_lt (by omega)
    · calc l.map (· % 256) = l.map id :=
            List.map_congr_left fun b hbm => Nat.mod_eq_of_lt (by have := hbytes b hbm; omega)
        _ = l := List.map_id l
  have henc : encodeDomainName d =
      [] ++ ((((d.splitOn 46).map fun l => l.length :: l).flatten) ++ 0 :: ([] : List Nat)) := by
    rw [encodeDomainName, hmap]; simp
  have hkey := parseLoop_encodedLabels (encodeDomainName d) (d.splitOn 46) [] [] [] false 0
    henc h
  simp only [List.length_nil, Bool.false_eq_true, if_false, List.nil_append, Nat.zero_add]
    at hkey
  have hsplit_ne : d.splitOn 46 ≠ [] := by
    rw [List.splitOn]
    exact List.splitOnP_ne_nil _ d
  have hname : ((d.splitOn 46).map fun l => l ++ [46]).flatten = d ++ [46] := by
    rw [flatten_map_append_sep 46 _ hsplit_ne]
    congr 1
    exact @List.intercalate_splitOn _ d 46 _
  have hlength : (encodeDomainName d).length =
      ((((d.splitOn 46).map fun l => l.length :: l).flatten)).length + 1 := by
    rw [encodeDomainName, hmap]; simp
  rw [parseDomainName, hkey, hname, hlength]

/-- Witness for C2's amended theorem at `d = "www.youtube.com"`: decoding
the encoding yields `("www.youtube.com.", 17)`, and 17 is the encoding's
length. -/
theorem encode_decode_roundTrip_witness :
    parseDomainName (encodeDomainName (str "www.youtube.com")) 0
        (((str "www.youtube.com").splitOn 46).length + 1) =
      some (str "www.youtube.com" ++ [46], (encodeDomainName (str "www.youtube.com")).length) ∧
      (encodeDomainName (str "www.youtube.com")).length = 17 :=
  ⟨encode_decode_roundTrip (str "www.youtube.com") (by decide), by decide⟩

/-- C3: when `decodeName` returns, its `newOffset` is the position of the
first compression pointer encountered plus 2, no matter how many further
pointers were chased for the name text; and when no pointer was
encountered, it is the position one past the terminating zero byte. -/
theorem parseDomainName_newOffset (buffer : List Nat) (offset fuel : Nat)
    (nm : List Nat) (off' : Nat)
    (h : parseDomainName buffer offset fuel = some (nm, off')) :
    (∀ p, firstPointerOnPath buffer fuel offset = some (some p) → off' = p + 2) ∧
      (firstPointerOnPath buffer fuel offset = some none →
        ∃ z, buffer.get? z = some 0 ∧ off' = z + 1) :=
  parseLoop_noPointer buffer fuel offset [] 0 nm off' h

/-- Witness for C3 on `[0x01, 0x61, 0x00, 0xc0, 0x00]` at offset 3: the
name is read through the pointer at position 3, and `newOffset` is
`3 + 2 = 5`. -/
theorem parseDomainName_newOffset_witness :
    parseDomainName [0x01, 0x61, 0x00, 0xc0, 0x00] 3 10 = some (str "a.", 5) ∧
      firstPointerOnPath [0x01, 0x61, 0x00, 0xc0, 0x00] 10 3 = some (some 3) ∧
      (5 : Nat) = 3 + 2 :=
  ⟨by decide, by decide,
    (parseDomainName_newOffset [0x01, 0x61, 0x00, 0xc0, 0x00] 3 10 (str "a.") 5
      (by decide)).1 3 (by decide)⟩

/-- Helper for C5: `updateOffset` threads through a cons — the offset after
`r :: rs` is the offset after `rs` when parsing continued at `r.offset`. -/
theorem updateOffset_cons (r : DNSRecord) (rs : List DNSRecord) (o : Nat) :
    updateOffset (r :: rs) o = updateOffset rs r.offset := by
  cases rs with
  | nil => rfl
  | cons r' rs =>
    simp only [updateOffset, List.getLast?_cons_cons]
    cases h : (r' :: rs).getLast? with
    | none => exact absurd (List.getLast?_eq_none_iff.mp h) (by simp)
    | some x => rfl

/-- Helper for C5: the source's `parseSections` (which returns only the
records, the final offset being recovered afterwards by `updateOffset`)
computes exactly the spec-worded section parse that threads the end offset
through explicitly. -/
theorem parseSectionsSpec_eq (buffer : List Nat) :
    ∀ count startOffset fuel,
      parseSectionsSpec buffer count startOffset fuel =
        (parseSections buffer count startOffset fuel).map
          fun rs => (rs, updateOffset rs startOffset)
  | 0, _, _ => rfl
  | count + 1, s, f => by
    simp only [parseSectionsSpec, parseSections]
    cases hr : parseRecord buffer s f with
    | none => rfl
    | some r =>
      simp only [Option.bind_eq_bind, Option.some_bind]
      rw [parseSectionsSpec_eq buffer count r.offset f]
      cases hs : parseSections buffer count r.offset f with
      | none => rfl
      | some rs => simp [updateOffset_cons]

/-- C5: `parseResponse` parses the question name at offset 12, skips 4
bytes of type+class, then parses exactly `answersCount` records, then
exactly `authorityCount` records starting at the offset where the answer
section ended, then exactly `additionalCount` records starting at the
offset where the authority section ended; an empty section leaves the
offset for the next section unchanged.  Stated as: the source parser agrees
with `parseResponseSpec`, the direct transcription of that description. -/
theorem parseResponse_sectionSequencing (buffer : List Nat) (fuel : Nat) :
    parseResponse buffer fuel = parseResponseSpec buffer fuel := by
  rw [parseResponse, parseResponseSpec]
  cases hr : isResponse buffer with
  | none => rfl
  | some flag =>
    cases flag with
    | false => rfl
    | true =>
      cases hh : parseHeader buffer with
      | none => rfl
      | some hd =>
        simp only [Option.bind_eq_bind, Option.some_bind]
        cases hq : parseDomainName buffer 12 fuel with
        | none => rfl
        | some q =>
          simp only [Option.bind_eq_bind, Option.some_bind]
          rw [parseSectionsSpec_eq]
          cases ha : parseSections buffer hd.answersCount (q.2 + 4) fuel with
          | none => rfl
          | some ans =>
            simp only [Option.bind_eq_bind, Option.some_bind, Option.map_some', Option.map_some]
            rw [parseSectionsSpec_eq]
            cases hau : parseSections buffer hd.authorityCount
                (updateOffset ans (q.2 + 4)) fuel with
            | none => rfl
            | some auth =>
              simp only [Option.bind_eq_bind, Option.some_bind, Option.map_some', Option.map_some]
              rw [parseSectionsSpec_eq]
              cases had : parseSections buffer hd.additionalCount
                  (updateOffset auth (updateOffset ans (q.2 + 4))) fuel with
              | none => rfl
              | some add => rfl

/-- Witness for C7 at the spec's AAAA test vector. -/
theorem interpretRData_aaaa_witness :
    (toBigEndian16Groups [32, 1, 13, 184, 0, 0, 8, 0, 0, 0, 0, 0, 0, 0, 0, 1]).length = 8 ∧
      interpretRDataARecord [32, 1, 13, 184, 0, 0, 8, 0, 0, 0, 0, 0, 0, 0, 0, 1] 28 =
        some (str "2001:db8:0:800:0:0:0:1") := by
  have h := interpretRData_aaaa [32, 1, 13, 184, 0, 0, 8, 0, 0, 0, 0, 0, 0, 0, 0, 1] rfl
  exact ⟨h.1, h.2.2⟩

end DNS
